import Mathlib

/-!
Verification development for the trajectory/state bookkeeping engine of the
gflownet repository.

The definitions below are a shallow embedding of the source files
src/gflownet/envs/base.py (reward shaping, the environment step contract,
action sampling, the replay Buffer) and src/gflownet/utils/batch.py (the
Batch accumulator).  Conventions:

- Machine floats are modelled as real numbers for the reward shaping
  functions and as rationals for policy tensors and replay rewards.
- States, actions and environment ids are opaque to the Batch; they are
  modelled as integers.
- Python exceptions are modelled with Except String; a call that raises is
  mapped to Except.error carrying the exception name.
- Python dict and OrderedDict objects keyed by environment id are modelled
  as association lists that keep insertion order, with update semantics
  matching dict.update: existing keys are overwritten in place, new keys are
  appended in order.
- The helper module gflownet.utils.common is not part of the sources.
  Following the specification, copy is deep copying (the identity on the
  integer states used here) and extend concatenates two columns.
-/

namespace GFN

/-- Reward shaping configuration held by GFlowNetEnv (base.py, constructor):
reward_func, reward_beta, reward_norm, min_reward (the source fixes it to
1e-8), denorm_proxy, and the two entries of energies_stats that
proxy2reward reads (index 2, the mean, and index 3, the std). -/
structure RewardCfg where
  reward_func : String
  reward_beta : ℝ
  reward_norm : ℝ
  min_reward : ℝ
  denorm_proxy : Bool
  es_mean : ℝ
  es_std : ℝ

/-- GFlowNetEnv.proxy2reward (base.py lines 152-176): optional
de-normalization, then for the power form
np.clip((-1.0 * v / reward_norm) ** reward_beta, min_reward, None) and for
the boltzmann form np.clip(np.exp(-1.0 * reward_beta * v), min_reward, None);
np.clip(x, lo, None) is max lo x.  Any other identifier raises. -/
noncomputable def proxy2reward (cfg : RewardCfg) (v0 : ℝ) : Except String ℝ :=
  let v := if cfg.denorm_proxy then v0 * cfg.es_std + cfg.es_mean else v0
  if cfg.reward_func = "power" then
    .ok (max cfg.min_reward ((-1 * v / cfg.reward_norm) ^ cfg.reward_beta))
  else if cfg.reward_func = "boltzmann" then
    .ok (max cfg.min_reward (Real.exp (-1 * cfg.reward_beta * v)))
  else
    .error "NotImplemented"

/-- GFlowNetEnv.reward2proxy (base.py lines 178-191), the algebraic inverse
of the shaping forms. -/
noncomputable def reward2proxy (cfg : RewardCfg) (r : ℝ) : Except String ℝ :=
  if cfg.reward_func = "power" then
    .ok (-Real.exp ((Real.log r + cfg.reward_beta * Real.log cfg.reward_norm)
          / cfg.reward_beta))
  else if cfg.reward_func = "boltzmann" then
    .ok (-1 * Real.log r / cfg.reward_beta)
  else
    .error "NotImplemented"

/-- GFlowNetEnv.reward (base.py lines 130-140).  The source returns
np.array(0.0) when done is True and proxy2reward(proxy(state2proxy(state)))
otherwise.  proxyF stands for the external proxy composed with the
state2proxy conversion. -/
noncomputable def reward (cfg : RewardCfg) (proxyF : ℤ → ℝ) (state : ℤ)
    (done : Bool) : Except String ℝ :=
  if done then .ok 0 else proxy2reward cfg (proxyF state)

/-- GFlowNetEnv.reward_batch (base.py lines 142-150): rows whose done flag is
True receive proxy2reward(proxy(state)), all other rows receive 0. -/
noncomputable def reward_batch (cfg : RewardCfg) (proxyF : ℤ → ℝ)
    (states : List ℤ) (done : List Bool) : Except String (List ℝ) :=
  (states.zip done).mapM
    (fun p => if p.2 then proxy2reward cfg (proxyF p.1) else .ok 0)

/-- The mutable per-trajectory context of GFlowNetEnv read by step: current
state, done flag, action counter n_actions, and the stop index eos, which
the base constructor sets to the length of the action space. -/
structure EnvState where
  state : ℤ
  done : Bool
  n_actions : ℕ
  eos : ℕ

/-- GFlowNetEnv.step (base.py lines 364-392).  The parameter is named
action_idx but the body reads the undefined name action in the comparison on
line 385, so every call raises NameError before reaching either branch. -/
def step (_e : EnvState) (_action_idx : ℤ) : Except String (EnvState × ℤ × Bool) :=
  .error "NameError: name action is not defined"

/-- GFlowNetEnv.step under the charitable renaming of the undefined name
action to the parameter action_idx: an action below eos resets done to False,
any other action sets done to True and increments n_actions; the returned
valid flag is True on every path, the state is returned unchanged, and
get_mask_invalid_actions_forward is never consulted. -/
def step_renamed (e : EnvState) (a : ℤ) : EnvState × ℤ × Bool :=
  if a < (e.eos : ℤ) then ({ e with done := false }, a, true)
  else ({ e with done := true, n_actions := e.n_actions + 1 }, a, true)

/-- Policy output tensors of shape [n_states, policy_output_dim], with float
entries modelled as rationals. -/
abbrev Tensor := List (List ℚ)

/-- In-place division logits /= temperature_logits (base.py line 298). -/
def divTemp (po : Tensor) (t : ℚ) : Tensor :=
  po.map (fun row => row.map (fun x => x / t))

/-- In-place masked assignment logits[mask_invalid_actions] = -loginf
(base.py lines 299-300 and 321-322). -/
def applyMaskNegInf (loginf : ℚ) (po : Tensor) (mask : List (List Bool)) : Tensor :=
  po.zipWith (fun row mrow => row.zipWith (fun x mb => if mb then -loginf else x) mrow) mask

/-- The value held by the policy_outputs tensor of the caller after
GFlowNetEnv.sample_actions returns (base.py lines 280-305).  With the
sampling method policy, logits aliases policy_outputs, so the in-place
division by temperature_logits and the in-place masked assignment mutate the
tensor of the caller.  With the sampling method uniform, logits is a freshly
allocated ones tensor, so the tensor of the caller is left untouched.  Any
other method leaves the local name logits unbound and the later uses of it
raise. -/
def sample_actions_po (po : Tensor) (sampling_method : String)
    (mask : Option (List (List Bool))) (temperature_logits loginf : ℚ) :
    Except String Tensor :=
  if sampling_method = "uniform" then .ok po
  else if sampling_method = "policy" then
    let l := divTemp po temperature_logits
    match mask with
    | some m => .ok (applyMaskNegInf loginf l m)
    | none => .ok l
  else .error "UnboundLocalError: local variable logits referenced before assignment"

/-- The value held by the policy_outputs tensor of the caller after
GFlowNetEnv.get_logprobs returns (base.py lines 307-325): logits aliases
policy_outputs and the masked entries are assigned -loginf in place. -/
def get_logprobs_po (po : Tensor) (mask : Option (List (List Bool)))
    (loginf : ℚ) : Tensor :=
  match mask with
  | some m => applyMaskNegInf loginf po m
  | none => po

/-- np.argmax: index of the first occurrence of the maximum.  np.max raises
ValueError on an empty array; the 0 returned here for an empty list is never
used because the loop guard is False on empty lists. -/
def argmaxIdx (l : List ℚ) : ℕ :=
  match l.max? with
  | some m => l.findIdx (fun x => x == m)
  | none => 0

/-- pandas Series.argmin: index of the first occurrence of the minimum. -/
def argminIdx (l : List ℚ) : ℕ :=
  match l.min? with
  | some m => l.findIdx (fun x => x == m)
  | none => 0

/-- The guard of the while loop of Buffer._add_greater (base.py line 550):
np.max(rewards_new) > np.min(rewards_old).  The replay reward column is res,
the working copy of the candidate rewards is new. -/
def addGreaterCond (res new : List ℚ) : Bool :=
  match new.max?, res.min? with
  | some mx, some mn => decide (mn < mx)
  | _, _ => false

/-- One iteration of the while loop of Buffer._add_greater (base.py lines
551-560): the replay slot holding the minimum reward is overwritten with the
entry of the original rewards list at the argmax of the working copy, and
that entry of the working copy is set to the sentinel -1. -/
def addGreaterStep (orig res new : List ℚ) : List ℚ × List ℚ :=
  let i := argmaxIdx new
  let j := argminIdx res
  (res.set j (orig.getD i 0), new.set i (-1))

/-- The while loop of Buffer._add_greater (base.py lines 550-560), run on a
fuel budget: some is returned when the guard becomes False within the
budget, none when the budget is exhausted with the guard still True. -/
def addGreaterLoop (orig : List ℚ) : ℕ → List ℚ × List ℚ → Option (List ℚ × List ℚ)
  | 0, st => if addGreaterCond st.1 st.2 then none else some st
  | fuel + 1, st =>
    if addGreaterCond st.1 st.2 then
      addGreaterLoop orig fuel (addGreaterStep orig st.1 st.2)
    else some st

/-- One sampled transition handed to Batch.add_to_batch: the environment
fields the method reads (id, post-step state, done flag, n_actions), the
action, the valid flag, and the mask for this row (None when add_to_batch is
called with train=False, where the source fills the mask list with None). -/
structure SampleTuple where
  envId : ℤ
  envStateVal : ℤ
  envDone : Bool
  envNActions : ℕ
  action : ℤ
  valid : Bool
  mask : Option (List Bool)

/-- The Batch of src/gflownet/utils/batch.py, restricted to the fields that
the claims under verification read or write.  The device, float precision,
source-state record and the continuous flag are omitted: no claim mentions
them.  Columns that the source may rebind to None (parents, parents_all,
rewards, states_policy, parents_policy) are Option valued; rewards also
starts as none because the attribute does not exist before
_compute_rewards runs. -/
structure Batch where
  size : ℕ
  envs : List ℤ
  trajectories : List (ℤ × List ℕ)
  traj_indices : List ℤ
  state_indices : List ℕ
  states : List ℤ
  actions : List ℤ
  done : List Bool
  masks_forward_col : List (Option (List Bool))
  masks_backward_col : List (Option (List Bool))
  parents : Option (List ℤ)
  parents_all : Option (List ℤ)
  states_policy : Option (List ℤ)
  parents_policy : Option (List ℤ)
  rewards : Option (List ℝ)
  parents_available : Bool
  parents_all_available : Bool
  masks_forward_available : Bool
  masks_backward_available : Bool
  rewards_available : Bool
  conditional : Bool

/-- A Batch as built by the constructor (batch.py lines 37-93). -/
def emptyBatch (conditional : Bool) : Batch where
  size := 0
  envs := []
  trajectories := []
  traj_indices := []
  state_indices := []
  states := []
  actions := []
  done := []
  masks_forward_col := []
  masks_backward_col := []
  parents := some []
  parents_all := some []
  states_policy := none
  parents_policy := none
  rewards := none
  parents_available := false
  parents_all_available := false
  masks_forward_available := false
  masks_backward_available := false
  rewards_available := false
  conditional := conditional

/-- Lookup in the ordered dictionary self.trajectories. -/
def lookupTraj (trajs : List (ℤ × List ℕ)) (id : ℤ) : Option (List ℕ) :=
  (trajs.find? (fun kv => kv.1 == id)).map Prod.snd

/-- Overwrite the value stored for an existing key of self.trajectories. -/
def setTraj (trajs : List (ℤ × List ℕ)) (id : ℤ) (v : List ℕ) :
    List (ℤ × List ℕ) :=
  trajs.map (fun kv => if kv.1 = id then (kv.1, v) else kv)

/-- One iteration of the loop of Batch.add_to_batch (batch.py lines
194-230) for a single (env, action, valid, mask) tuple.  Rows are skipped
when train is False and the env is not done, or when valid is False.  In
backward mode the current env state is appended to self.parents; the first
row of a trajectory stores the env state with done forced True and the mask
appended to the backward mask column, while later rows store
self.parents[self.trajectories[env.id][1]] and the env done flag (no mask is
appended on that branch in the source).  In forward mode the env state, env
done flag and mask are appended.  The trajectory list is created with the
new row index, or the index is prepended (backward) or appended (forward).
In the source an exception leaves a partially mutated batch; here the error
value abandons the update, which no claim depends on. -/
def addOne (backward train : Bool) (b : Batch) (t : SampleTuple) :
    Except String Batch :=
  if train == false && t.envDone == false then .ok b
  else if t.valid == false then .ok b
  else
    let envs' := if b.envs.contains t.envId then b.envs else b.envs ++ [t.envId]
    let trajectories' :=
      match lookupTraj b.trajectories t.envId with
      | none => b.trajectories ++ [(t.envId, [b.size])]
      | some l =>
        setTraj b.trajectories t.envId
          (if backward then b.size :: l else l ++ [b.size])
    let b1 := { b with
      envs := envs'
      trajectories := trajectories'
      traj_indices := b.traj_indices ++ [t.envId]
      state_indices := b.state_indices ++ [t.envNActions]
      actions := b.actions ++ [t.action]
      size := b.size + 1 }
    if backward then
      match b.parents with
      | none => .error "AttributeError: NoneType object has no attribute append"
      | some ps =>
        let ps' := ps ++ [t.envStateVal]
        let trajList := (lookupTraj trajectories' t.envId).getD []
        if trajList.length == 1 then
          .ok { b1 with
            parents := some ps'
            states := b.states ++ [t.envStateVal]
            done := b.done ++ [true]
            masks_backward_col := b.masks_backward_col ++ [t.mask] }
        else
          match trajList[1]? with
          | none => .error "IndexError: list index out of range"
          | some i =>
            match ps'[i]? with
            | none => .error "IndexError: list index out of range"
            | some s =>
              .ok { b1 with
                parents := some ps'
                states := b.states ++ [s]
                done := b.done ++ [t.envDone] }
    else
      .ok { b1 with
        states := b.states ++ [t.envStateVal]
        done := b.done ++ [t.envDone]
        masks_forward_col := b.masks_forward_col ++ [t.mask] }

/-- Batch.add_to_batch (batch.py lines 129-230) over a list of tuples. -/
def add_to_batch (backward train : Bool) (b : Batch) (ts : List SampleTuple) :
    Except String Batch :=
  ts.foldlM (addOne backward train) b

/-- Equality of two lists of ids viewed as finite sets, as in the
comparisons set(...) == set(...) of Batch.is_valid. -/
def sameKeySet (a b : List ℤ) : Bool :=
  a.all (fun x => b.contains x) && b.all (fun x => a.contains x)

/-- Batch.is_valid (batch.py lines 986-1015): every parallel column has the
batch length, the set of trajectory indices and the set of trajectory keys
both equal the set of env ids, and the concatenation of the per-trajectory
row index lists has the batch length with no duplicates. -/
def is_valid (b : Batch) : Bool :=
  if b.states.length != b.size then false
  else if b.actions.length != b.size then false
  else if b.done.length != b.size then false
  else if b.traj_indices.length != b.size then false
  else if b.state_indices.length != b.size then false
  else if !(sameKeySet b.traj_indices b.envs) then false
  else if !(sameKeySet (b.trajectories.map Prod.fst) b.envs) then false
  else
    let batch_indices := (b.trajectories.map Prod.snd).flatten
    if batch_indices.length != b.size then false
    else if batch_indices.dedup.length != batch_indices.length then false
    else true

/-- Batch._shift_traj_indices (batch.py lines 1017-1033): validity is
asserted before and after, and the shift is added to the per-row trajectory
indices, the trajectory dictionary keys and the env dictionary keys.  Row
indices inside the trajectory lists are not touched. -/
def shift_traj_indices (b : Batch) (by_ : ℤ) : Except String Batch :=
  if !(is_valid b) then
    .error "Exception: Batch is not valid before attempting indices shift"
  else
    let b' := { b with
      traj_indices := b.traj_indices.map (fun i => i + by_)
      trajectories := b.trajectories.map (fun kv => (kv.1 + by_, kv.2))
      envs := b.envs.map (fun k => k + by_) }
    if !(is_valid b') then
      .error "Exception: Batch is not valid after performing indices shift"
    else .ok b'

/-- dict.update on the ordered env-id key set. -/
def dictKeysUpdate (d u : List ℤ) : List ℤ :=
  u.foldl (fun acc k => if acc.contains k then acc else acc ++ [k]) d

/-- dict.update on the ordered trajectory dictionary. -/
def assocUpdate (d u : List (ℤ × List ℕ)) : List (ℤ × List ℕ) :=
  u.foldl
    (fun acc kv =>
      if acc.any (fun e => e.1 == kv.1) then
        acc.map (fun e => if e.1 == kv.1 then kv else e)
      else acc ++ [kv])
    d

/-- The data mutation performed by one iteration of Batch.merge (batch.py
lines 932-982), before the final assert: the trajectory ids of the incoming
batch are shifted by (max existing id) + 1 (0 when the receiver is empty),
the main columns are spliced, and the optional data is kept only when
available on both sides.  Row indices inside the incoming trajectory lists
are spliced as they are.  On the branches that drop optional data the source
leaves every _available flag unchanged, and for the mask caches it assigns
None to the previously nonexistent attributes masks_forward and
masks_backward, so the mask columns themselves are also unchanged there. -/
def mergeSplice (a other : Batch) : Except String Batch := do
  let shift ← if a.size == 0 then pure (0 : ℤ)
    else match (a.trajectories.map Prod.fst).max? with
      | some mx => pure (mx + 1)
      | none => Except.error "ValueError: zero-size array reduction"
  let o ← shift_traj_indices other shift
  pure { a with
    size := a.size + o.size
    envs := dictKeysUpdate a.envs o.envs
    trajectories := assocUpdate a.trajectories o.trajectories
    traj_indices := a.traj_indices ++ o.traj_indices
    state_indices := a.state_indices ++ o.state_indices
    states := a.states ++ o.states
    actions := a.actions ++ o.actions
    done := a.done ++ o.done
    states_policy :=
      match a.states_policy, o.states_policy with
      | some x, some y => some (x ++ y)
      | _, _ => none
    parents_policy :=
      match a.parents_policy, o.parents_policy with
      | some x, some y => some (x ++ y)
      | _, _ => none
    masks_forward_col :=
      if a.masks_forward_available && o.masks_forward_available then
        a.masks_forward_col ++ o.masks_forward_col
      else a.masks_forward_col
    masks_backward_col :=
      if a.masks_backward_available && o.masks_backward_available then
        a.masks_backward_col ++ o.masks_backward_col
      else a.masks_backward_col
    parents :=
      if a.parents_available && o.parents_available then
        match a.parents, o.parents with
        | some x, some y => some (x ++ y)
        | _, _ => none
      else none
    parents_all :=
      if a.parents_all_available && o.parents_all_available then
        match a.parents_all, o.parents_all with
        | some x, some y => some (x ++ y)
        | _, _ => none
      else none
    rewards :=
      if a.rewards_available && o.rewards_available then
        match a.rewards, o.rewards with
        | some x, some y => some (x ++ y)
        | _, _ => none
      else none }

/-- Batch.merge (batch.py lines 921-984) for a single incoming batch: the
splice followed by assert self.is_valid(). -/
def merge (a other : Batch) : Except String Batch := do
  let m ← mergeSplice a other
  if is_valid m then pure m
  else Except.error "AssertionError: the merged batch is not valid"

/-- Batch._compute_rewards (batch.py lines 764-781): the reward column is a
zero tensor with the rows whose done flag is True overwritten by
proxy2reward(proxy(state)), and rewards_available is set to True.
proxyRewardF stands for env.proxy2reward composed with env.proxy and the
proxy-format conversion. -/
noncomputable def compute_rewards (proxyRewardF : ℤ → ℝ) (b : Batch) : Batch :=
  { b with
    rewards := some ((b.done.zip b.states).map
      (fun p => if p.1 then proxyRewardF p.2 else 0))
    rewards_available := true }

/-- Batch.get_rewards (batch.py lines 749-762): recompute only when
rewards_available is False or force_recompute is True, then return
self.rewards. -/
noncomputable def get_rewards (proxyRewardF : ℤ → ℝ) (force_recompute : Bool)
    (b : Batch) : Option (List ℝ) :=
  if b.rewards_available == false || force_recompute then
    (compute_rewards proxyRewardF b).rewards
  else b.rewards

/-- Batch.states2proxy with default arguments (batch.py lines 367-423).  On
the non-conditional branch the generic env converts the whole states column
(the base statebatch2proxy is np.array, the identity on row content).  On
the conditional branch the loop body evaluates index[env_ids == env_id] on
line 417, but env_ids and env_id are undefined names (the loop variable is
traj_idx), so the first executed iteration raises NameError; when no
iteration runs, torch.cat is called on an empty list and raises. -/
def states2proxy (b : Batch) : Except String (List ℤ) :=
  if b.conditional then
    if b.trajectories.any (fun kv => b.traj_indices.contains kv.1) then
      .error "NameError: name env_ids is not defined"
    else
      .error "RuntimeError: torch.cat expected a non-empty list of Tensors"
  else .ok b.states

/-- A forward sample tuple with a valid action and no mask. -/
def tupF (id stateVal : ℤ) (doneFlag : Bool) (na : ℕ) (a : ℤ) : SampleTuple :=
  { envId := id, envStateVal := stateVal, envDone := doneFlag,
    envNActions := na, action := a, valid := true, mask := none }

/-- A one-row batch built forward: one env with id 0 whose trajectory
reached its terminal state 5. -/
def batchA : Except String Batch :=
  add_to_batch false true (emptyBatch false) [tupF 0 5 true 1 0]

/-- A second one-row batch built forward, also with env id 0, holding
terminal state 6. -/
def batchB : Except String Batch :=
  add_to_batch false true (emptyBatch false) [tupF 0 6 true 1 0]

/-- batchA with its reward cache computed (every proxy reward taken as 1). -/
noncomputable def batchARewards : Except String Batch :=
  batchA.map (compute_rewards (fun _ => (1 : ℝ)))

/-- A one-row conditional batch built forward. -/
def batchCond : Except String Batch :=
  add_to_batch false true (emptyBatch true) [tupF 0 5 true 1 0]

/-- A mixed batch: one forward row for env 0 (state 5), then two backward
rows for env 1 (env states 7 and 9). -/
def batchMixed : Except String Batch := do
  let b1 ← add_to_batch false true (emptyBatch false) [tupF 0 5 false 1 1]
  let b2 ← add_to_batch true true b1
    [{ envId := 1, envStateVal := 7, envDone := false, envNActions := 3,
       action := 2, valid := true, mask := none }]
  add_to_batch true true b2
    [{ envId := 1, envStateVal := 9, envDone := false, envNActions := 2,
       action := 3, valid := true, mask := none }]

/-- A purely backward batch with a single row for env 1 (env state 7,
recorded after the backward eos step from the terminal state 7). -/
def batchBack1 : Batch :=
  (add_to_batch true true (emptyBatch false)
    [{ envId := 1, envStateVal := 7, envDone := false, envNActions := 3,
       action := 2, valid := true, mask := none }]).toOption.getD (emptyBatch false)

/-- The second backward tuple for env 1: after one more backward step the
env state is 9. -/
def tupBack2 : SampleTuple :=
  { envId := 1, envStateVal := 9, envDone := false, envNActions := 2,
    action := 3, valid := true, mask := none }

/-- The default reward configuration of the base environment: power form
with reward_beta = 1, reward_norm = 1 and the fixed min_reward = 1e-8. -/
noncomputable def cfgPowerBeta1 : RewardCfg :=
  { reward_func := "power", reward_beta := 1, reward_norm := 1,
    min_reward := 1 / 100000000, denorm_proxy := false, es_mean := 0, es_std := 1 }

/-- The power form with reward_beta = 2 and reward_norm = 1. -/
noncomputable def cfgPowerBeta2 : RewardCfg :=
  { reward_func := "power", reward_beta := 2, reward_norm := 1,
    min_reward := 1 / 100000000, denorm_proxy := false, es_mean := 0, es_std := 1 }

/-- The boltzmann form with reward_beta = 1. -/
noncomputable def cfgBoltzmann : RewardCfg :=
  { reward_func := "boltzmann", reward_beta := 1, reward_norm := 1,
    min_reward := 1 / 100000000, denorm_proxy := false, es_mean := 0, es_std := 1 }

/-! Helper lemmas. -/

theorem min?_facts (l : List ℚ) (m : ℚ) (h : l.min? = some m) :
    m ∈ l ∧ ∀ b ∈ l, m ≤ b := by
  haveI : Std.Antisymm (fun x1 x2 : ℚ => x1 ≤ x2) := ⟨fun h h2 => le_antisymm h h2⟩
  rw [List.min?_eq_some_iff le_refl (fun a b => min_choice a b)
    (fun a b c => le_min_iff)] at h
  exact h

theorem max?_facts (l : List ℚ) (m : ℚ) (h : l.max? = some m) :
    m ∈ l ∧ ∀ b ∈ l, b ≤ m := by
  haveI : Std.Antisymm (fun x1 x2 : ℚ => x1 ≤ x2) := ⟨fun h h2 => le_antisymm h h2⟩
  rw [List.max?_eq_some_iff le_refl (fun a b => max_choice a b)
    (fun a b c => max_le_iff)] at h
  exact h

theorem argmaxIdx_lt (l : List ℚ) (mx : ℚ) (h : l.max? = some mx) :
    argmaxIdx l < l.length := by
  unfold argmaxIdx
  rw [h]
  exact List.findIdx_lt_length_of_exists ⟨mx, (max?_facts l mx h).1, by simp⟩

theorem argmaxIdx_getD (l : List ℚ) (mx : ℚ) (h : l.max? = some mx) :
    l.getD (argmaxIdx l) 0 = mx := by
  have hlt := argmaxIdx_lt l mx h
  rw [List.getD_eq_getElem l 0 hlt]
  have hfind : argmaxIdx l = l.findIdx (fun x => x == mx) := by
    unfold argmaxIdx; rw [h]
  have hp := @List.findIdx_getElem _ (fun x => x == mx) l (hfind ▸ hlt)
  have : l[l.findIdx (fun x => x == mx)] = mx := by simpa using hp
  simp only [hfind]
  exact this

theorem lookupTraj_append_self (l : List (ℤ × List ℕ)) (id : ℤ) (v : List ℕ)
    (h : lookupTraj l id = none) : lookupTraj (l ++ [(id, v)]) id = some v := by
  unfold lookupTraj at h ⊢
  have hfind : l.find? (fun kv => kv.1 == id) = none := by
    cases hf : l.find? (fun kv => kv.1 == id) with
    | none => rfl
    | some kv => rw [hf] at h; simp at h
  rw [List.find?_append, hfind]
  simp [List.find?]

theorem lookupTraj_setTraj (l : List (ℤ × List ℕ)) (id : ℤ) (v old : List ℕ)
    (h : lookupTraj l id = some old) : lookupTraj (setTraj l id v) id = some v := by
  induction l with
  | nil => simp [lookupTraj] at h
  | cons kv tl ih =>
    by_cases hk : kv.1 = id
    · simp [lookupTraj, setTraj, List.find?, hk]
    · have htl : lookupTraj tl id = some old := by
        simp only [lookupTraj, List.find?] at h
        rw [show (kv.1 == id) = false by simp [hk]] at h
        exact h
      have hrec := ih htl
      simp only [setTraj] at hrec ⊢
      simp only [lookupTraj, List.map_cons, List.find?, hk, if_false] at hrec ⊢
      rw [show (kv.1 == id) = false by simp [hk]]
      exact hrec

/-! Claim theorems. -/

/-- C1: the claim states that after any finite sequence of add_to_batch and
merge calls on a batch created empty, is_valid() is True.  The source
violates it: Batch.merge splices the trajectory row-index lists of the
incoming batch without shifting the row indices by the receiver size, so
merging two one-row batches (each built by a single forward add_to_batch
call) yields duplicated row index 0 across the two trajectories; is_valid
is False on the spliced data and the assert at the end of merge raises. -/
theorem C1_merge_breaks_is_valid :
    (do let a ← batchA; let b ← batchB; mergeSplice a b).map is_valid =
      Except.ok false ∧
    (do let a ← batchA; let b ← batchB; merge a b) =
      Except.error "AssertionError: the merged batch is not valid" :=
  ⟨rfl, rfl⟩

/-- C6: the claim states that A.merge(B) produces a batch of size |A| + |B|
with all trajectory ids distinct.  On the same two valid one-row batches,
the spliced data does reach size 2 with distinct shifted trajectory ids 0
and 1, but the unshifted row indices make it invalid, so merge raises its
final assert and never returns the claimed batch. -/
theorem C6_merge_raises_assert :
    (do let a ← batchA; let b ← batchB; mergeSplice a b).map
        (fun (m : Batch) => (m.size, m.trajectories.map Prod.fst, is_valid m)) =
      Except.ok (2, [0, 1], false) ∧
    (do let a ← batchA; let b ← batchB; merge a b).isOk = false :=
  ⟨rfl, rfl⟩

/-- C7: the claim states that after merge each derived cache is marked
available only if it was valid in both inputs, and is otherwise dropped so
a later read recomputes it.  The source drops the data but never clears the
availability flags: merging a batch with computed rewards with an empty
batch (rewards unavailable) leaves rewards_available True while rewards is
None, so get_rewards returns the absent value without recomputing, even
though recomputation would produce a value. -/
theorem C7_merge_keeps_stale_flag :
    (batchARewards.bind (fun a => merge a (emptyBatch false))).map
      (fun m => (m.rewards_available, m.rewards.isNone,
        (get_rewards (fun _ => (1 : ℝ)) false m).isNone,
        ((compute_rewards (fun _ => (1 : ℝ)) m).rewards).isSome)) =
      Except.ok (true, true, true, true) :=
  rfl

/-- C8: the claim states that states2proxy on a conditional batch returns
one converted row per input row in the original order.  The conditional
branch of the source instead raises NameError on its first loop iteration,
because line 417 reads the undefined names env_ids and env_id. -/
theorem C8_conditional_states2proxy_raises :
    batchCond.bind states2proxy =
      Except.error "NameError: name env_ids is not defined" :=
  rfl

/-- C3: the claim states that step handles eos by setting done and returns
valid=False for masked-invalid actions without raising.  Every call of the
source step raises NameError, because the body reads the undefined name
action while the parameter is action_idx; and even under the charitable
renaming, the valid flag is True on every path and the forward mask is
never consulted. -/
theorem C3_step_raises_name_error :
    (∀ (e : EnvState) (a : ℤ),
      step e a = Except.error "NameError: name action is not defined") ∧
    (∀ (e : EnvState) (a : ℤ), (step_renamed e a).2.2 = true) :=
  ⟨fun _ _ => rfl, fun e a => by unfold step_renamed; split <;> rfl⟩

/-- C9 counterexample: the claim states that sample_actions overwrites the
masked entries of the policy_outputs tensor of the caller whenever a mask is
given.  With sampling_method uniform the source builds a fresh ones tensor
and masks that one instead: on input [[5]] with every entry masked, the
tensor of the caller still holds 5, not -loginf = -1000. -/
theorem C9_counterexample :
    sample_actions_po [[5]] "uniform" (some [[true]]) 1 1000 =
      Except.ok [[5]] ∧ (5 : ℚ) ≠ -1000 :=
  ⟨rfl, by decide⟩

/-- C9 as amended: get_logprobs, and sample_actions with sampling_method
policy, leave the policy_outputs tensor of the caller mutated in place (for
sample_actions the whole tensor is divided by temperature_logits and the
masked entries are then overwritten with -loginf; for get_logprobs only the
masked entries are overwritten); sample_actions with sampling_method
uniform masks a fresh ones tensor and leaves the tensor of the caller
unchanged.  The tensor of the caller is not restored after the call. -/
theorem C9_inplace_mutation (po : Tensor) (m : List (List Bool)) (T L : ℚ)
    (i j : ℕ) (row : List ℚ) (mrow : List Bool) (x : ℚ) (mb : Bool)
    (h1 : po[i]? = some row) (h2 : m[i]? = some mrow)
    (h3 : row[j]? = some x) (h4 : mrow[j]? = some mb) :
    ((sample_actions_po po "policy" (some m) T L).map
        (fun t => t[i]?.bind (fun r => r[j]?))) =
      Except.ok (some (if mb then -L else x / T)) ∧
    ((get_logprobs_po po (some m) L)[i]?.bind (fun r => r[j]?)) =
      some (if mb then -L else x) ∧
    sample_actions_po po "uniform" (some m) T L = Except.ok po := by
  refine ⟨?_, ?_, rfl⟩
  · simp only [sample_actions_po]
    rw [if_neg (by decide : ¬ ("policy" : String) = "uniform")]
    simp only [if_true, reduceIte, Except.map]
    congr 1
    rw [applyMaskNegInf, List.getElem?_zipWith]
    rw [show (divTemp po T)[i]? = some (row.map (fun y => y / T)) by
      simp [divTemp, List.getElem?_map, h1]]
    rw [h2]
    simp only [Option.some_bind]
    rw [List.getElem?_zipWith, List.getElem?_map, h3, h4]
    simp
  · simp only [get_logprobs_po, applyMaskNegInf]
    rw [List.getElem?_zipWith, h1, h2]
    simp only [Option.some_bind]
    rw [List.getElem?_zipWith, h3, h4]

/-- C9 witness: the amended statement evaluated on the concrete input
po = [[4]], mask = [[True]], temperature 2, loginf 1000 at entry (0, 0). -/
theorem C9_inplace_mutation_witness :
    ((sample_actions_po [[4]] "policy" (some [[true]]) 2 1000).map
        (fun t => t[0]?.bind (fun r => r[0]?))) =
      Except.ok (some ((-1000 : ℚ))) ∧
    ((get_logprobs_po [[4]] (some [[true]]) 1000)[0]?.bind (fun r => r[0]?)) =
      some ((-1000 : ℚ)) ∧
    sample_actions_po [[4]] "uniform" (some [[true]]) 2 1000 =
      Except.ok [[4]] := by
  have h := C9_inplace_mutation [[4]] [[true]] 2 1000 0 0 [4] [true] 4 true
    rfl rfl rfl rfl
  exact ⟨by simpa using h.1, by simpa using h.2.1, h.2.2⟩

/-- C2: the claim (and the specification) states that reward(state, done)
returns 0 for non-terminal states and the shaped proxy value for terminal
ones.  The source has the condition inverted: it returns 0 exactly when
done is True and the shaped value when done is False, contradicting its own
sibling reward_batch, which assigns shaped rewards to the done rows.  Here,
with the power form (beta = 1, norm = 1) and a proxy returning -1, the
shaped value is 1: reward gives 0 for the done state and 1 for the
non-terminal one, while reward_batch gives 1 for the same done row. -/
theorem C2_reward_inverted :
    reward cfgPowerBeta1 (fun _ => -1) 0 true = Except.ok 0 ∧
    reward cfgPowerBeta1 (fun _ => -1) 0 false = Except.ok 1 ∧
    reward_batch cfgPowerBeta1 (fun _ => -1) [0] [true] = Except.ok [1] := by
  have hval : proxy2reward cfgPowerBeta1 (-1) = Except.ok 1 := by
    have hb : ((-1 : ℝ) * (-1) / 1) = 1 := by norm_num
    simp only [proxy2reward, cfgPowerBeta1, if_false, Bool.false_eq_true,
      reduceIte, hb]
    rw [Real.rpow_one]
    rw [max_eq_right (by norm_num : (1 : ℝ) / 100000000 ≤ 1)]
  refine ⟨rfl, ?_, ?_⟩
  · simp only [reward, Bool.false_eq_true, reduceIte]
    exact hval
  · simp only [reward_batch, List.zip, List.zipWith, List.mapM, List.mapM.loop]
    simp [hval]

/-- C4 counterexample: the claim asserts for every backward add_to_batch
call on an already-present trajectory that the stored state is the previous
state in the trajectory.  In a batch that also holds forward rows, the
parents column is shorter than the batch and misaligned with the batch row
indices it is indexed by: after one forward row (state 5) and a first
backward row for env 1 (state 7, the previous state of the trajectory), the
second backward row for env 1 (current state 9) stores 9 - its own current
state, read back from the misaligned parents list - instead of the previous
state 7.  The row index is still prepended. -/
theorem C4_counterexample :
    batchMixed.map (fun (b : Batch) => (b.states, b.parents, b.trajectories)) =
      Except.ok ([5, 7, 9], some [7, 9], [(0, [0]), (1, [2, 1])]) ∧
    (9 : ℤ) ≠ 7 :=
  ⟨rfl, by decide⟩

/-- C4 as amended: in a batch whose parents column is aligned with the rows
(as is the case when every row was added backward), a backward add_to_batch
call on a valid tuple stores done = True for the first row of a trajectory
regardless of the env done flag, and for an already-present trajectory it
prepends the new row index to the trajectory index list and stores the
state recorded in the parents entry of the previously first row - the
previous state in the trajectory - together with the env done flag. -/
theorem C4_backward_add (b : Batch) (t : SampleTuple) (ps : List ℤ)
    (hps : b.parents = some ps) (hlen : ps.length = b.size)
    (hv : t.valid = true) :
    (lookupTraj b.trajectories t.envId = none →
      (addOne true true b t).map
        (fun (b2 : Batch) =>
          (lookupTraj b2.trajectories t.envId, b2.done.getLast?)) =
      Except.ok (some [b.size], some true)) ∧
    (∀ (i0 : ℕ) (rest : List ℕ),
      lookupTraj b.trajectories t.envId = some (i0 :: rest) → i0 < b.size →
      (addOne true true b t).map
        (fun (b2 : Batch) => (lookupTraj b2.trajectories t.envId,
          b2.states.getLast?, b2.done.getLast?)) =
      Except.ok (some (b.size :: i0 :: rest), some (ps.getD i0 0),
        some t.envDone)) := by
  constructor
  · intro hnew
    simp only [addOne, hv, hps, hnew]
    simp [lookupTraj_append_self _ _ _ hnew, Except.map, List.getLast?_concat]
  · intro i0 rest hold hi
    simp only [addOne, hv, hps, hold]
    have hset := lookupTraj_setTraj b.trajectories t.envId
      (b.size :: i0 :: rest) _ hold
    have hlt : i0 < ps.length := by omega
    have hget : (ps ++ [t.envStateVal])[i0]? = some (ps.getD i0 0) := by
      rw [List.getElem?_append, if_pos hlt, List.getElem?_eq_getElem hlt,
        List.getD_eq_getElem ps 0 hlt]
    simp [hset, hget, Except.map, List.getLast?_concat]

/-- C4 witness: the amended statement evaluated on the purely backward
batch batchBack1 (one row for env 1, parents = [7]) and the second backward
tuple (current env state 9): the new index 1 is prepended, the stored state
is the previous state 7 and the stored done flag is the env flag False. -/
theorem C4_backward_add_witness :
    batchBack1.parents = some [7] ∧
    (addOne true true batchBack1 tupBack2).map
      (fun (b2 : Batch) => (lookupTraj b2.trajectories tupBack2.envId,
        b2.states.getLast?, b2.done.getLast?)) =
    Except.ok (some [1, 0], some 7, some false) := by
  have h := (C4_backward_add batchBack1 tupBack2 [7] rfl rfl rfl).2 0 [] rfl
    (by decide)
  exact ⟨rfl, by simpa using h⟩

/-- C5 counterexample: the claim asserts the round trip
reward2proxy(proxy2reward(v)) = v for every proxy value at which the clip is
not active, for both shaping forms.  For the power form with beta = 2 and
norm = 1 at v = 1 the clip is inactive (the shaped value is 1 > 1e-8), yet
the round trip returns -1, not 1: the power inverse always produces a
negative proxy value. -/
theorem C5_counterexample :
    proxy2reward cfgPowerBeta2 1 = Except.ok 1 ∧
    reward2proxy cfgPowerBeta2 1 = Except.ok (-1) ∧
    ((-1 : ℝ) ≠ 1) ∧
    cfgPowerBeta2.min_reward <
      ((-1 : ℝ) * 1 / cfgPowerBeta2.reward_norm) ^ cfgPowerBeta2.reward_beta := by
  have hpow : ((-1 : ℝ)) ^ (2 : ℝ) = 1 := by
    rw [show (2 : ℝ) = ((2 : ℕ) : ℝ) by norm_num, Real.rpow_natCast]
    norm_num
  have hb : ((-1 : ℝ) * 1 / 1) = -1 := by norm_num
  refine ⟨?_, ?_, by norm_num, ?_⟩
  · simp only [proxy2reward, cfgPowerBeta2, Bool.false_eq_true, reduceIte,
      hb, hpow]
    rw [max_eq_right (by norm_num : (1 : ℝ) / 100000000 ≤ 1)]
  · simp only [reward2proxy, cfgPowerBeta2, reduceIte, Real.log_one]
    norm_num [Real.exp_zero]
  · simp only [cfgPowerBeta2, hb, hpow]
    norm_num

/-- C5 as amended: with norm > 0, beta > 0 and no de-normalization, the
round trip reward2proxy(proxy2reward(v)) = v holds for the power form at
every strictly negative proxy value v at which the clip is not active, and
for the boltzmann form at every proxy value at which the clip is not
active.  The restriction v < 0 for the power form is forced by the
counterexample above. -/
theorem C5_roundtrip (cfg : RewardCfg) (v : ℝ) (hn : 0 < cfg.reward_norm)
    (hb : 0 < cfg.reward_beta) (hd : cfg.denorm_proxy = false) :
    (cfg.reward_func = "power" → v < 0 →
      cfg.min_reward < (-1 * v / cfg.reward_norm) ^ cfg.reward_beta →
      (proxy2reward cfg v).bind (reward2proxy cfg) = Except.ok v) ∧
    (cfg.reward_func = "boltzmann" →
      cfg.min_reward < Real.exp (-1 * cfg.reward_beta * v) →
      (proxy2reward cfg v).bind (reward2proxy cfg) = Except.ok v) := by
  constructor
  · intro hf hv hclip
    have hx : (0 : ℝ) < -1 * v / cfg.reward_norm := by
      apply div_pos (by linarith) hn
    simp only [proxy2reward, hd, Bool.false_eq_true, reduceIte, hf]
    rw [max_eq_right (le_of_lt hclip)]
    simp only [Except.bind, reward2proxy, hf, reduceIte]
    congr 1
    rw [Real.log_rpow hx]
    have hbne : cfg.reward_beta ≠ 0 := ne_of_gt hb
    rw [show (cfg.reward_beta * Real.log (-1 * v / cfg.reward_norm) +
        cfg.reward_beta * Real.log cfg.reward_norm) / cfg.reward_beta =
        Real.log (-1 * v / cfg.reward_norm) + Real.log cfg.reward_norm by
      field_simp; ring]
    rw [Real.exp_add, Real.exp_log hx, Real.exp_log hn]
    field_simp
  · intro hf hclip
    simp only [proxy2reward, hd, Bool.false_eq_true, reduceIte, hf]
    rw [if_neg (by decide : ¬ ("boltzmann" : String) = "power")]
    rw [max_eq_right (le_of_lt hclip)]
    simp only [Except.bind, reward2proxy, hf]
    rw [if_neg (by decide : ¬ ("boltzmann" : String) = "power")]
    simp only [if_true, reduceIte]
    rw [Real.log_exp]
    have hbne : cfg.reward_beta ≠ 0 := ne_of_gt hb
    congr 1
    field_simp

/-- C5 witness: the amended round trip evaluated at v = -1, for the power
form with beta = 2 and for the boltzmann form with beta = 1; both clips are
inactive there and both round trips return -1. -/
theorem C5_roundtrip_witness :
    ((0 : ℝ) < cfgPowerBeta2.reward_norm ∧ (0 : ℝ) < cfgPowerBeta2.reward_beta ∧
      ((-1 : ℝ) < 0) ∧
      cfgPowerBeta2.min_reward <
        ((-1 : ℝ) * (-1) / cfgPowerBeta2.reward_norm) ^ cfgPowerBeta2.reward_beta) ∧
    (proxy2reward cfgPowerBeta2 (-1)).bind (reward2proxy cfgPowerBeta2) =
      Except.ok (-1) ∧
    (proxy2reward cfgBoltzmann (-1)).bind (reward2proxy cfgBoltzmann) =
      Except.ok (-1) := by
  have hclipP : cfgPowerBeta2.min_reward <
      ((-1 : ℝ) * (-1) / cfgPowerBeta2.reward_norm) ^ cfgPowerBeta2.reward_beta := by
    simp only [cfgPowerBeta2]
    rw [show ((-1 : ℝ) * (-1) / 1) = 1 by norm_num, Real.one_rpow]
    norm_num
  have hclipB : cfgBoltzmann.min_reward <
      Real.exp (-1 * cfgBoltzmann.reward_beta * (-1)) := by
    simp only [cfgBoltzmann]
    rw [show ((-1 : ℝ) * 1 * (-1)) = 1 by norm_num]
    have h9 := Real.exp_one_gt_d9
    norm_num
    linarith
  refine ⟨⟨by norm_num [cfgPowerBeta2], by norm_num [cfgPowerBeta2],
    by norm_num, hclipP⟩, ?_, ?_⟩
  · exact (C5_roundtrip cfgPowerBeta2 (-1) (by norm_num [cfgPowerBeta2])
      (by norm_num [cfgPowerBeta2]) rfl).1 rfl (by norm_num) hclipP
  · exact (C5_roundtrip cfgBoltzmann (-1) (by norm_num [cfgBoltzmann])
      (by norm_num [cfgBoltzmann]) rfl).2 rfl hclipB

theorem cond_facts (res new : List ℚ) (h : addGreaterCond res new = true) :
    ∃ mx mn, new.max? = some mx ∧ res.min? = some mn ∧ mn < mx := by
  unfold addGreaterCond at h
  cases hmax : new.max? with
  | none => rw [hmax] at h; simp at h
  | some mx =>
    cases hmin : res.min? with
    | none => rw [hmax, hmin] at h; simp at h
    | some mn =>
      rw [hmax, hmin] at h
      simp only [decide_eq_true_eq] at h
      exact ⟨mx, mn, rfl, rfl, h⟩

theorem addGreater_fuel (orig : List ℚ) (m : ℚ) (hm1 : (-1 : ℚ) ≤ m) :
    ∀ (fuel : ℕ) (res new : List ℚ),
      new.length = orig.length →
      (∀ x ∈ res, m ≤ x) →
      (∀ k : ℕ, new.getD k 0 = orig.getD k 0 ∨ new.getD k 0 = -1) →
      new.countP (fun x => decide (m < x)) ≤ fuel →
      (addGreaterLoop orig fuel (res, new)).isSome = true := by
  intro fuel
  induction fuel with
  | zero =>
    intro res new hlen hres hmask hcnt
    unfold addGreaterLoop
    cases hc : addGreaterCond res new with
    | false => simp
    | true =>
      exfalso
      obtain ⟨mx, mn, hmax, hmin, hlt⟩ := cond_facts res new hc
      have hm_mn : m ≤ mn := hres mn (min?_facts res mn hmin).1
      have hpos : 0 < new.countP (fun x => decide (m < x)) :=
        List.countP_pos_iff.mpr ⟨mx, (max?_facts new mx hmax).1,
          by simp only [decide_eq_true_eq]; exact lt_of_le_of_lt hm_mn hlt⟩
      omega
  | succ n ih =>
    intro res new hlen hres hmask hcnt
    unfold addGreaterLoop
    cases hc : addGreaterCond res new with
    | false => simp
    | true =>
      simp only [if_true, reduceIte]
      obtain ⟨mx, mn, hmax, hmin, hlt⟩ := cond_facts res new hc
      have hm_mn : m ≤ mn := hres mn (min?_facts res mn hmin).1
      have hm_mx : m < mx := lt_of_le_of_lt hm_mn hlt
      have hilt : argmaxIdx new < new.length := argmaxIdx_lt new mx hmax
      have hgetD : new.getD (argmaxIdx new) 0 = mx := argmaxIdx_getD new mx hmax
      have horig : orig.getD (argmaxIdx new) 0 = mx := by
        rcases hmask (argmaxIdx new) with h1 | h1
        · rw [← h1, hgetD]
        · exfalso
          rw [hgetD] at h1
          rw [h1] at hm_mx
          linarith
      simp only [addGreaterStep]
      apply ih
      · rw [List.length_set, hlen]
      · intro x hx
        rcases List.mem_or_eq_of_mem_set hx with hx1 | hx1
        · exact hres x hx1
        · rw [hx1, horig]
          exact le_of_lt hm_mx
      · intro k
        by_cases hk : argmaxIdx new = k
        · subst hk
          right
          rw [List.getD_eq_getElem?_getD, List.getElem?_set, if_pos rfl,
            if_pos hilt]
          rfl
        · have heq : (new.set (argmaxIdx new) (-1)).getD k 0 = new.getD k 0 := by
            rw [List.getD_eq_getElem?_getD, List.getElem?_set, if_neg hk,
              ← List.getD_eq_getElem?_getD]
          rw [heq]
          exact hmask k
      · have hidx : new[argmaxIdx new] = mx := by
          rw [← hgetD, List.getD_eq_getElem _ _ hilt]
        have hstep : (new.set (argmaxIdx new) (-1)).countP
            (fun x => decide (m < x)) =
            new.countP (fun x => decide (m < x)) - 1 := by
          rw [List.countP_set _ _ _ _ hilt, hidx]
          rw [if_pos (by simp only [decide_eq_true_eq]; exact hm_mx)]
          rw [if_neg (by simp only [decide_eq_true_eq]; exact not_lt.mpr hm1)]
          omega
        have hpos : 0 < new.countP (fun x => decide (m < x)) :=
          List.countP_pos_iff.mpr ⟨mx, (max?_facts new mx hmax).1,
            by simp only [decide_eq_true_eq]; exact hm_mx⟩
        rw [hstep]
        omega

/-- C10: Buffer._add_greater terminates for every finite candidate list:
when every reservoir reward is at least the sentinel -1 (as guaranteed by
the constructor, which fills the reservoir with -1, and preserved by
updates), the while loop ends with its guard False within at most one
iteration per candidate whose reward exceeds the initial reservoir minimum,
because each iteration overwrites the consumed candidate entry of the
working copy with -1. -/
theorem C10_add_greater_terminates (orig res : List ℚ) (m : ℚ)
    (hmin : res.min? = some m) (hge : ∀ x ∈ res, (-1 : ℚ) ≤ x) :
    (addGreaterLoop orig (orig.countP (fun x => decide (m < x)))
      (res, orig)).isSome = true := by
  have hmem := (min?_facts res m hmin).1
  exact addGreater_fuel orig m (hge m hmem) _ res orig rfl
    (min?_facts res m hmin).2 (fun k => Or.inl rfl) le_rfl

/-- C10 witness: the testable-property example of the specification, a
capacity-3 reservoir of -1 placeholders ingesting rewards [5, 3, 9, 1, 7];
the loop ends within 5 iterations (it actually uses 3). -/
theorem C10_add_greater_terminates_witness :
    (([-1, -1, -1] : List ℚ).min? = some (-1) ∧
      ∀ x ∈ ([-1, -1, -1] : List ℚ), (-1 : ℚ) ≤ x) ∧
    (addGreaterLoop [5, 3, 9, 1, 7]
      (([5, 3, 9, 1, 7] : List ℚ).countP (fun x => decide ((-1 : ℚ) < x)))
      ([-1, -1, -1], [5, 3, 9, 1, 7])).isSome = true :=
  ⟨⟨by decide, by decide⟩,
    C10_add_greater_terminates [5, 3, 9, 1, 7] [-1, -1, -1] (-1)
      (by decide) (by decide)⟩

end GFN
